import Mathlib

/-!
Shallow embedding of the status-workflow core of the PR and Payment
Tracker (src/iom_tracker.py): the entity tables, the dashboard
status-update handlers, the form save handlers, the DSA day computation
and the PR submission validation, together with the status_history
ledger every handler appends to.  Dates are modelled as integers
counting days since an arbitrary epoch; the float 0.3 day adjustment is
modelled as the rational 3/10.  Text columns carry Lean String values;
the changed_at timestamp column and pass-through form columns that no
handler ever reads back (invoice numbers, amounts, remarks, and so on)
are elided.
-/

namespace IomTracker

/-- Row of the status_history table: record_type, record_id, old_status,
new_status, changed_by (the timestamp column is elided). -/
structure HistoryEntry where
  record_type : String
  record_id : String
  old_status : Option String
  new_status : String
  changed_by : String
  deriving DecidableEq, Repr

/-- Row of the pr_tracking table (one PR line), keeping the columns the
modelled handlers read or write. -/
structure PRRow where
  id : Nat
  pr_number : String
  days : Int
  location : String
  status : String
  deriving DecidableEq, Repr

/-- Row of the pr_wbls table: a WBL allocation attached to a PR line. -/
structure WblRow where
  pr_id : Nat
  project_name : String
  task_name : String
  percentage : Nat
  deriving DecidableEq, Repr

/-- A WBL allocation as collected by the form, before it is attached to
a PR id: project name, task name, percentage. -/
structure Wbl where
  project_name : String
  task_name : String
  percentage : Nat
  deriving DecidableEq, Repr

/-- Row of the payment_tracking table; pr_id is nullable in the schema. -/
structure PaymentRow where
  id : Nat
  pr_id : Option Nat
  pr_number : String
  category : String
  status : String
  deriving DecidableEq, Repr

/-- Row of the dsa_payments table. -/
structure DsaRow where
  id : Nat
  vendor_name : String
  start_date : Int
  end_date : Int
  days : Rat
  status : String
  deriving DecidableEq, Repr

/-- Row of the operational_advances table. -/
structure OARow where
  id : Nat
  supplier_name : String
  status : String
  deriving DecidableEq, Repr

/-- Row of the operational_liquidations table. -/
structure LiqRow where
  id : Nat
  oa_id : Nat
  status : String
  deriving DecidableEq, Repr

/-- The committed database state: one list per table plus the next
autoincrement id for each table with modelled inserts. -/
structure State where
  prs : List PRRow
  wbls : List WblRow
  payments : List PaymentRow
  dsas : List DsaRow
  oas : List OARow
  liqs : List LiqRow
  history : List HistoryEntry
  nextPrId : Nat
  nextPaymentId : Nat
  nextDsaId : Nat
  nextOaId : Nat
  nextLiqId : Nat
  deriving DecidableEq, Repr

/-- Failure surfaced to the user instead of a committed write. -/
inductive Err where
  | NotFound
  | ValidationError
  deriving DecidableEq, Repr

/-- DSA days rule from the DSA Payment form:
diff = (end_date - start_date).days; days = 0 if diff < 0 else diff + 0.3. -/
def dsaDays (start_date end_date : Int) : Rat :=
  let diff : Int := end_date - start_date
  if diff < 0 then 0 else (diff : Rat) + 3/10

/-- Modelled from the spec: the DSA days rule as the specification words
it, for comparison with dsaDays: if diff <= 0 the result is 0; if
diff == 1 the result is 0.3; otherwise (diff - 1) + 0.3. -/
def dsaDaysSpec (start_date end_date : Int) : Rat :=
  let diff : Int := end_date - start_date
  if diff ≤ 0 then 0 else if diff = 1 then 3/10 else ((diff : Rat) - 1) + 3/10

/-- PR line duration from the PR form:
days = max((to_date - from_date).days + 1, 0). -/
def computePrDays (from_date to_date : Int) : Int :=
  max ((to_date - from_date) + 1) 0

/-- Dashboard Update PR Status button: read the old status by id (an
absent row makes fetchone() return nothing and the handler fail before
any write), write the new status, append one PR history entry, commit. -/
def updatePRStatusDashboard (st : State) (prId : Nat) (newStatus user : String) :
    Option Err × State :=
  match st.prs.find? (fun r => r.id == prId) with
  | none => (some .NotFound, st)
  | some pr =>
      (none,
        { st with
          prs := st.prs.map fun r =>
            if r.id == prId then { r with status := newStatus } else r
          history := st.history ++
            [⟨"PR", toString prId, some pr.status, newStatus, user⟩] })

/-- Dashboard Update Payment Status button: read the old status by id,
write the new status, append one Payment history entry, commit; then,
when the new status is Completed, read the pr_id of the payment and, if
it is non-null and the PR row exists, write Completed to the PR and
append one PR history entry.  A null pr_id skips the cascade silently;
a non-null pr_id with no PR row fails after the primary commit, so the
primary write persists. -/
def updatePaymentStatusDashboard (st : State) (payId : Nat) (newStatus user : String) :
    Option Err × State :=
  match st.payments.find? (fun r => r.id == payId) with
  | none => (some .NotFound, st)
  | some pay =>
      let st1 : State :=
        { st with
          payments := st.payments.map fun r =>
            if r.id == payId then { r with status := newStatus } else r
          history := st.history ++
            [⟨"Payment", toString payId, some pay.status, newStatus, user⟩] }
      if newStatus = "Completed" then
        match pay.pr_id with
        | none => (none, st1)
        | some prId =>
            match st1.prs.find? (fun r => r.id == prId) with
            | none => (some .NotFound, st1)
            | some pr =>
                (none,
                  { st1 with
                    prs := st1.prs.map fun r =>
                      if r.id == prId then { r with status := "Completed" } else r
                    history := st1.history ++
                      [⟨"PR", toString prId, some pr.status, "Completed", user⟩] })
      else (none, st1)

/-- Dashboard Update DSA Status button: read old status by id, write the
new status, append one DSA history entry, commit. -/
def updateDsaStatusDashboard (st : State) (dsaId : Nat) (newStatus user : String) :
    Option Err × State :=
  match st.dsas.find? (fun r => r.id == dsaId) with
  | none => (some .NotFound, st)
  | some d =>
      (none,
        { st with
          dsas := st.dsas.map fun r =>
            if r.id == dsaId then { r with status := newStatus } else r
          history := st.history ++
            [⟨"DSA", toString dsaId, some d.status, newStatus, user⟩] })

/-- Dashboard Update OA Status button: read old status by id, write the
new status, append one OA history entry, commit. -/
def updateOaStatusDashboard (st : State) (oaId : Nat) (newStatus user : String) :
    Option Err × State :=
  match st.oas.find? (fun r => r.id == oaId) with
  | none => (some .NotFound, st)
  | some oa =>
      (none,
        { st with
          oas := st.oas.map fun r =>
            if r.id == oaId then { r with status := newStatus } else r
          history := st.history ++
            [⟨"OA", toString oaId, some oa.status, newStatus, user⟩] })

/-- Dashboard Update Liquidation Status button, keyed by OA id: fetch
the old liquidation status (first row with this oa_id, if any), write
the new status to every liquidation row with this oa_id, write the same
status to the OA row (unconditionally), and append two history entries,
tagged Liquidation and OA, both carrying the OA id as record_id and the
old liquidation status as old_status. -/
def updateLiquidationStatusDashboard (st : State) (oaId : Nat) (newStatus user : String) :
    Option Err × State :=
  let oldLiq : Option String := (st.liqs.find? (fun r => r.oa_id == oaId)).map (·.status)
  (none,
    { st with
      liqs := st.liqs.map fun r =>
        if r.oa_id == oaId then { r with status := newStatus } else r
      oas := st.oas.map fun r =>
        if r.id == oaId then { r with status := newStatus } else r
      history := st.history ++
        [⟨"Liquidation", toString oaId, oldLiq, newStatus, user⟩,
         ⟨"OA", toString oaId, oldLiq, newStatus, user⟩] })

/-- Header fields of the PR form that the submit validation inspects. -/
structure PRHeader where
  pr_number : String
  programme_unit : String
  type_services : String
  category : String
  type_vehicle : String
  assigned_to : String
  deriving DecidableEq, Repr

/-- One PR line of the form: dates, location and its individual WBL
allocations (already filtered to entries with non-blank names, as the
form collects them). -/
structure PRLine where
  from_date : Int
  to_date : Int
  location : String
  wbls : List Wbl
  deriving DecidableEq, Repr

/-- Truth of the Python test `not s.strip()`: the string is empty or
all whitespace. -/
def isBlank (s : String) : Bool :=
  s.data.all fun c => c.isWhitespace

/-- Missing required header fields, in the order the submit handler
checks them. -/
def missingFields (h : PRHeader) : List String :=
  (if isBlank h.pr_number then ["PR Number"] else []) ++
  (if h.programme_unit = "" then ["Programme Unit"] else []) ++
  (if h.type_services = "" then ["Type of Services"] else []) ++
  (if h.category = "" then ["Category"] else []) ++
  (if h.category = "Rental Vehicle" ∧ h.type_vehicle = "" then ["Type of Vehicle"] else []) ++
  (if isBlank h.assigned_to then ["Assigned To"] else [])

/-- Percentage sum the submit handler computes over shared WBLs:
sum([p for _, _, p in shared_wbls if p]) skips falsy (zero) entries. -/
def wblSum (ws : List Wbl) : Nat :=
  ((ws.filter fun w => w.percentage != 0).map fun w => w.percentage).sum

/-- Insert one PR line: a pr_tracking row with status Submitted and the
computed days, its WBL allocation rows, and one PR creation history
entry with a null old_status. -/
def insertPRLine (h : PRHeader) (user : String) (ws : List Wbl) (st : State)
    (l : PRLine) : State :=
  let prId := st.nextPrId
  { st with
    prs := st.prs ++
      [⟨prId, h.pr_number, computePrDays l.from_date l.to_date, l.location, "Submitted"⟩]
    wbls := st.wbls ++ ws.map fun w => ⟨prId, w.project_name, w.task_name, w.percentage⟩
    history := st.history ++ [⟨"PR", toString prId, none, "Submitted", user⟩]
    nextPrId := prId + 1 }

/-- Submit PR button: reject when a required header field is missing;
reject when the shared-WBL option is on and the shared percentages do
not sum to 100; reject when a line misses a required field (the handler
stops before the commit, so nothing is persisted); otherwise insert
every line, using the shared WBLs for each line when the option is on
and the individual line WBLs otherwise, and commit. -/
def submitPR (st : State) (h : PRHeader) (sameWblForAll : Bool)
    (sharedWbls : List Wbl) (lines : List PRLine) (user : String) :
    Option Err × State :=
  if missingFields h ≠ [] then (some .ValidationError, st)
  else if sameWblForAll ∧ wblSum sharedWbls ≠ 100 then (some .ValidationError, st)
  else if lines.any fun l => isBlank l.location then (some .ValidationError, st)
  else
    (none,
      lines.foldl
        (fun s l => insertPRLine h user (if sameWblForAll then sharedWbls else l.wbls) s l)
        st)

/-- Save Payment button for a PR-linked category: the selected PR row
always exists (the form only offers existing PRs, and the pr_id foreign
key would reject anything else).  If a payment row with this pr_id
exists, update it in place (update-if-exists-else-insert); otherwise
insert a new payment row linked to the PR.  Then append one Payment
history entry whose record_id is the PR id and whose old_status is
null, and, when the saved status is Completed, write Completed to the
PR row and append one PR history entry carrying the PR status read when
the form was loaded. -/
def savePayment (st : State) (prId : Nat) (category status user : String) :
    Option Err × State :=
  match st.prs.find? (fun r => r.id == prId) with
  | none => (some .NotFound, st)
  | some pr =>
      let st1 : State :=
        match st.payments.find? (fun r => r.pr_id == some prId) with
        | some _ =>
            { st with
              payments := st.payments.map fun r =>
                if r.pr_id == some prId then
                  { r with pr_number := pr.pr_number, category := category, status := status }
                else r }
        | none =>
            { st with
              payments := st.payments ++
                [⟨st.nextPaymentId, some prId, pr.pr_number, category, status⟩]
              nextPaymentId := st.nextPaymentId + 1 }
      let st2 : State :=
        { st1 with
          history := st1.history ++ [⟨"Payment", toString prId, none, status, user⟩] }
      if status = "Completed" then
        (none,
          { st2 with
            prs := st2.prs.map fun r =>
              if r.id == prId then { r with status := "Completed" } else r
            history := st2.history ++
              [⟨"PR", toString prId, some pr.status, "Completed", user⟩] })
      else (none, st2)

/-- Save DSA Payment button: insert a dsa_payments row with the computed
days and append one DSA history entry whose record_id is the vendor
name and whose old_status is null. -/
def saveDsaPayment (st : State) (vendor_name : String) (start_date end_date : Int)
    (status user : String) : State :=
  { st with
    dsas := st.dsas ++
      [⟨st.nextDsaId, vendor_name, start_date, end_date,
        dsaDays start_date end_date, status⟩]
    history := st.history ++ [⟨"DSA", vendor_name, none, status, user⟩]
    nextDsaId := st.nextDsaId + 1 }

/-- Save Operational Advance button: insert an operational_advances row
and append one OA history entry whose record_id is the fresh row id
(lastrowid) and whose old_status is null. -/
def saveOperationalAdvance (st : State) (supplier_name status user : String) : State :=
  { st with
    oas := st.oas ++ [⟨st.nextOaId, supplier_name, status⟩]
    history := st.history ++ [⟨"OA", toString st.nextOaId, none, status, user⟩]
    nextOaId := st.nextOaId + 1 }

/-- Save Liquidation Record button: the selected OA row always exists
(the page stops when there is none).  Insert an operational_liquidations
row carrying the chosen status; no Liquidation history entry is
appended.  When the chosen status is Completed or Paid, also write it to
the OA row and append one OA history entry carrying the OA status read
when the form was loaded. -/
def saveLiquidationRecord (st : State) (oaId : Nat) (status user : String) :
    Option Err × State :=
  match st.oas.find? (fun r => r.id == oaId) with
  | none => (some .NotFound, st)
  | some oa =>
      let st1 : State :=
        { st with
          liqs := st.liqs ++ [⟨st.nextLiqId, oaId, status⟩]
          nextLiqId := st.nextLiqId + 1 }
      if status = "Completed" ∨ status = "Paid" then
        (none,
          { st1 with
            oas := st1.oas.map fun r =>
              if r.id == oaId then { r with status := status } else r
            history := st1.history ++
              [⟨"OA", toString oaId, some oa.status, status, user⟩] })
      else (none, st1)

/-- A small concrete database state used to instantiate the theorems:
one PR (id 3) in process, one payment (id 7) linked to it, one payment
(id 9) with a null pr_id, one DSA payment, and one OA (id 1) with a
liquidation row. -/
def exState : State where
  prs := [⟨3, "PR-2024-11", 5, "Islamabad", "In Process"⟩]
  wbls := []
  payments := [⟨7, some 3, "PR-2024-11", "ICT", "In Process"⟩,
               ⟨9, none, "", "Miscellaneous", "Pending"⟩]
  dsas := [⟨1, "ACME Travels", 0, 5, dsaDays 0 5, "Pending"⟩]
  oas := [⟨1, "Supplier A", "Pending"⟩]
  liqs := [⟨1, 1, "Pending"⟩]
  history := []
  nextPrId := 4
  nextPaymentId := 10
  nextDsaId := 2
  nextOaId := 2
  nextLiqId := 2

/-- C1: the claim says days(start, start) = 0, but the DSA Payment form
computes 0 only for diff < 0 and otherwise diff + 0.3, so a same-day
span yields 0.3, not the 0 the specification formula gives. -/
theorem C1_dsa_days_counterexample :
    dsaDays 0 0 = 3/10 ∧ dsaDaysSpec 0 0 = 0 ∧ dsaDays 0 0 ≠ dsaDaysSpec 0 0 := by
  norm_num [dsaDays, dsaDaysSpec]

/-- C1 (amended): the DSA days computation returns 0 when
diff = end_date - start_date is negative and diff + 0.3 otherwise; in
particular days(start, start) = 0.3, days(start, start + 1) = 1.3 and
days(start, start + 5) = 5.3. -/
theorem C1_dsa_days_amended (s e : Int) :
    (e - s < 0 → dsaDays s e = 0) ∧
    (0 ≤ e - s → dsaDays s e = ((e - s : Int) : Rat) + 3/10) ∧
    dsaDays s s = 3/10 ∧ dsaDays s (s + 1) = 13/10 ∧ dsaDays s (s + 5) = 53/10 := by
  refine ⟨fun h => ?_, fun h => ?_, ?_, ?_, ?_⟩
  · simp [dsaDays, h]
  · simp [dsaDays, not_lt.mpr h]
  · norm_num [dsaDays]
  · norm_num [dsaDays]
  · norm_num [dsaDays]

/-- C1 amended claim instantiated at concrete dates. -/
theorem C1_dsa_days_amended_witness :
    dsaDays 2 1 = 0 ∧ dsaDays 0 5 = ((5 - 0 : Int) : Rat) + 3/10 := by
  exact ⟨(C1_dsa_days_amended 2 1).1 (by decide),
         (C1_dsa_days_amended 0 5).2.1 (by decide)⟩

/-- Helper: the dashboard PR update on an absent id fails before any
write, leaving the state untouched. -/
theorem lem_updatePR_none (st : State) (prId : Nat) (ns u : String)
    (h : st.prs.find? (fun r => r.id == prId) = none) :
    updatePRStatusDashboard st prId ns u = (some .NotFound, st) := by
  simp [updatePRStatusDashboard, h]

/-- Helper: the dashboard PR update on a present id writes the status
and appends exactly one PR history entry. -/
theorem lem_updatePR_found (st : State) (prId : Nat) (ns u : String) (pr : PRRow)
    (h : st.prs.find? (fun r => r.id == prId) = some pr) :
    updatePRStatusDashboard st prId ns u =
      (none,
        { st with
          prs := st.prs.map fun r =>
            if r.id == prId then { r with status := ns } else r
          history := st.history ++ [⟨"PR", toString prId, some pr.status, ns, u⟩] }) := by
  simp [updatePRStatusDashboard, h]

/-- Helper: the dashboard payment update on an absent id fails before
any write, leaving the state untouched. -/
theorem lem_updatePayment_none (st : State) (payId : Nat) (ns u : String)
    (h : st.payments.find? (fun r => r.id == payId) = none) :
    updatePaymentStatusDashboard st payId ns u = (some .NotFound, st) := by
  simp [updatePaymentStatusDashboard, h]

/-- Helper: the dashboard payment update on a present id always writes
the payment status and appends the Payment history entry first,
whatever the cascade then does. -/
theorem lem_updatePayment_found (st : State) (payId : Nat) (ns u : String) (pay : PaymentRow)
    (h : st.payments.find? (fun r => r.id == payId) = some pay) :
    (updatePaymentStatusDashboard st payId ns u).2.payments =
      (st.payments.map fun r =>
        if r.id == payId then { r with status := ns } else r) ∧
    ∃ extra, (updatePaymentStatusDashboard st payId ns u).2.history =
      st.history ++ ⟨"Payment", toString payId, some pay.status, ns, u⟩ :: extra := by
  unfold updatePaymentStatusDashboard
  rw [h]
  by_cases hc : ns = "Completed"
  · subst hc
    cases hpr : pay.pr_id with
    | none => exact ⟨by simp [hpr], [], by simp [hpr]⟩
    | some prId =>
        cases hfind : st.prs.find? (fun r => r.id == prId) with
        | none => exact ⟨by simp [hpr, hfind], [], by simp [hpr, hfind]⟩
        | some pr =>
            refine ⟨by simp [hpr, hfind],
              [⟨"PR", toString prId, some pr.status, "Completed", u⟩],
              by simp [hpr, hfind]⟩
  · exact ⟨by simp [hc], [], by simp [hc]⟩

/-- Helper: payment completed with a null pr_id: the cascade is skipped
silently and only the primary write and its entry happen. -/
theorem lem_updatePayment_completed_nullpr (st : State) (payId : Nat) (u : String)
    (pay : PaymentRow)
    (hfind : st.payments.find? (fun r => r.id == payId) = some pay)
    (hnull : pay.pr_id = none) :
    updatePaymentStatusDashboard st payId "Completed" u =
      (none,
        { st with
          payments := st.payments.map fun r =>
            if r.id == payId then { r with status := "Completed" } else r
          history := st.history ++
            [⟨"Payment", toString payId, some pay.status, "Completed", u⟩] }) := by
  simp [updatePaymentStatusDashboard, hfind, hnull]

/-- Helper: payment completed with a linked, existing PR: the payment
and the PR are both written and exactly two entries are appended. -/
theorem lem_updatePayment_completed_cascade (st : State) (payId prId : Nat) (u : String)
    (pay : PaymentRow) (pr : PRRow)
    (hfind : st.payments.find? (fun r => r.id == payId) = some pay)
    (hlink : pay.pr_id = some prId)
    (hpr : st.prs.find? (fun r => r.id == prId) = some pr) :
    updatePaymentStatusDashboard st payId "Completed" u =
      (none,
        { st with
          payments := st.payments.map fun r =>
            if r.id == payId then { r with status := "Completed" } else r
          prs := st.prs.map fun r =>
            if r.id == prId then { r with status := "Completed" } else r
          history := st.history ++
            [⟨"Payment", toString payId, some pay.status, "Completed", u⟩,
             ⟨"PR", toString prId, some pr.status, "Completed", u⟩] }) := by
  simp [updatePaymentStatusDashboard, hfind, hlink, hpr]

/-- Helper: the dashboard DSA update on a present id writes the status
and appends exactly one DSA history entry. -/
theorem lem_updateDsa_found (st : State) (dsaId : Nat) (ns u : String) (d : DsaRow)
    (h : st.dsas.find? (fun r => r.id == dsaId) = some d) :
    updateDsaStatusDashboard st dsaId ns u =
      (none,
        { st with
          dsas := st.dsas.map fun r =>
            if r.id == dsaId then { r with status := ns } else r
          history := st.history ++ [⟨"DSA", toString dsaId, some d.status, ns, u⟩] }) := by
  simp [updateDsaStatusDashboard, h]

/-- Helper: the dashboard OA update on a present id writes the status
and appends exactly one OA history entry. -/
theorem lem_updateOa_found (st : State) (oaId : Nat) (ns u : String) (oa : OARow)
    (h : st.oas.find? (fun r => r.id == oaId) = some oa) :
    updateOaStatusDashboard st oaId ns u =
      (none,
        { st with
          oas := st.oas.map fun r =>
            if r.id == oaId then { r with status := ns } else r
          history := st.history ++ [⟨"OA", toString oaId, some oa.status, ns, u⟩] }) := by
  simp [updateOaStatusDashboard, h]

/-- Helper: the dashboard DSA update on an absent id fails before any
write, leaving the state untouched. -/
theorem lem_updateDsa_none (st : State) (dsaId : Nat) (ns u : String)
    (h : st.dsas.find? (fun r => r.id == dsaId) = none) :
    updateDsaStatusDashboard st dsaId ns u = (some .NotFound, st) := by
  simp [updateDsaStatusDashboard, h]

/-- Helper: the dashboard OA update on an absent id fails before any
write, leaving the state untouched. -/
theorem lem_updateOa_none (st : State) (oaId : Nat) (ns u : String)
    (h : st.oas.find? (fun r => r.id == oaId) = none) :
    updateOaStatusDashboard st oaId ns u = (some .NotFound, st) := by
  simp [updateOaStatusDashboard, h]

/-- Helper: mapping a conditional rewrite over a list in which no
element satisfies the condition leaves the list unchanged. -/
theorem lem_map_no_match {α : Type} (l : List α) (p : α → Bool) (f : α → α)
    (h : ∀ x ∈ l, ¬ p x = true) :
    (l.map fun r => if p r then f r else r) = l := by
  induction l with
  | nil => rfl
  | cons a t ih =>
      have ha := h a (List.mem_cons_self a t)
      simp only [List.map_cons, if_neg ha]
      rw [ih fun x hx => h x (List.mem_cons_of_mem a hx)]

/-- C7: the claim says every entity type fails with NotFound when no
record matches and commits nothing on that failure, but the dashboard
Liquidation update never fails: with oa_id 99, which matches no
liquidation and no OA row, it reports success and still commits two
history entries (with a null old status). -/
theorem C7_update_status_counterexample :
    exState.liqs.find? (fun r => r.oa_id == 99) = none ∧
    exState.oas.find? (fun r => r.id == 99) = none ∧
    (updateLiquidationStatusDashboard exState 99 "Completed" "admin").1 = none ∧
    (updateLiquidationStatusDashboard exState 99 "Completed" "admin").2.history =
      exState.history ++
        [⟨"Liquidation", toString 99, none, "Completed", "admin"⟩,
         ⟨"OA", toString 99, none, "Completed", "admin"⟩] := by
  exact ⟨rfl, rfl, rfl, rfl⟩

/-- C7 (amended): for the dashboard PR, Payment, DSA and OA status
updates, an absent id fails with NotFound and commits nothing, and a
present id performs the status write with the appended audit entry
carrying the prior status as its old_status; the dashboard Liquidation
update, however, never fails with NotFound: it always reports success
and always commits its two history entries, even when no liquidation
and no OA row matches the given id and no row is written. -/
theorem C7_update_status_contract :
    (∀ (st : State) (prId : Nat) (ns u : String),
        st.prs.find? (fun r => r.id == prId) = none →
        updatePRStatusDashboard st prId ns u = (some .NotFound, st)) ∧
    (∀ (st : State) (prId : Nat) (ns u : String) (pr : PRRow),
        st.prs.find? (fun r => r.id == prId) = some pr →
        (updatePRStatusDashboard st prId ns u).1 = none ∧
        (updatePRStatusDashboard st prId ns u).2.prs =
          (st.prs.map fun r => if r.id == prId then { r with status := ns } else r) ∧
        (updatePRStatusDashboard st prId ns u).2.history =
          st.history ++ [⟨"PR", toString prId, some pr.status, ns, u⟩]) ∧
    (∀ (st : State) (payId : Nat) (ns u : String),
        st.payments.find? (fun r => r.id == payId) = none →
        updatePaymentStatusDashboard st payId ns u = (some .NotFound, st)) ∧
    (∀ (st : State) (payId : Nat) (ns u : String) (pay : PaymentRow),
        st.payments.find? (fun r => r.id == payId) = some pay →
        (updatePaymentStatusDashboard st payId ns u).2.payments =
          (st.payments.map fun r => if r.id == payId then { r with status := ns } else r) ∧
        ∃ extra, (updatePaymentStatusDashboard st payId ns u).2.history =
          st.history ++ ⟨"Payment", toString payId, some pay.status, ns, u⟩ :: extra) ∧
    (∀ (st : State) (dsaId : Nat) (ns u : String),
        st.dsas.find? (fun r => r.id == dsaId) = none →
        updateDsaStatusDashboard st dsaId ns u = (some .NotFound, st)) ∧
    (∀ (st : State) (dsaId : Nat) (ns u : String) (d : DsaRow),
        st.dsas.find? (fun r => r.id == dsaId) = some d →
        (updateDsaStatusDashboard st dsaId ns u).1 = none ∧
        (updateDsaStatusDashboard st dsaId ns u).2.dsas =
          (st.dsas.map fun r => if r.id == dsaId then { r with status := ns } else r) ∧
        (updateDsaStatusDashboard st dsaId ns u).2.history =
          st.history ++ [⟨"DSA", toString dsaId, some d.status, ns, u⟩]) ∧
    (∀ (st : State) (oaId : Nat) (ns u : String),
        st.oas.find? (fun r => r.id == oaId) = none →
        updateOaStatusDashboard st oaId ns u = (some .NotFound, st)) ∧
    (∀ (st : State) (oaId : Nat) (ns u : String) (oa : OARow),
        st.oas.find? (fun r => r.id == oaId) = some oa →
        (updateOaStatusDashboard st oaId ns u).1 = none ∧
        (updateOaStatusDashboard st oaId ns u).2.oas =
          (st.oas.map fun r => if r.id == oaId then { r with status := ns } else r) ∧
        (updateOaStatusDashboard st oaId ns u).2.history =
          st.history ++ [⟨"OA", toString oaId, some oa.status, ns, u⟩]) ∧
    (∀ (st : State) (oaId : Nat) (ns u : String),
        (updateLiquidationStatusDashboard st oaId ns u).1 = none ∧
        (updateLiquidationStatusDashboard st oaId ns u).2.history.length =
          st.history.length + 2 ∧
        (st.liqs.find? (fun r => r.oa_id == oaId) = none →
         st.oas.find? (fun r => r.id == oaId) = none →
          (updateLiquidationStatusDashboard st oaId ns u).2.liqs = st.liqs ∧
          (updateLiquidationStatusDashboard st oaId ns u).2.oas = st.oas)) := by
  refine ⟨fun st prId ns u h => lem_updatePR_none st prId ns u h,
          fun st prId ns u pr h => ?_,
          fun st payId ns u h => lem_updatePayment_none st payId ns u h,
          fun st payId ns u pay h => lem_updatePayment_found st payId ns u pay h,
          fun st dsaId ns u h => lem_updateDsa_none st dsaId ns u h,
          fun st dsaId ns u d h => ?_,
          fun st oaId ns u h => lem_updateOa_none st oaId ns u h,
          fun st oaId ns u oa h => ?_,
          fun st oaId ns u => ⟨rfl, by simp [updateLiquidationStatusDashboard],
            fun hl ho => ⟨?_, ?_⟩⟩⟩
  · rw [lem_updatePR_found st prId ns u pr h]
    exact ⟨rfl, rfl, rfl⟩
  · rw [lem_updateDsa_found st dsaId ns u d h]
    exact ⟨rfl, rfl, rfl⟩
  · rw [lem_updateOa_found st oaId ns u oa h]
    exact ⟨rfl, rfl, rfl⟩
  · exact lem_map_no_match st.liqs (fun r => r.oa_id == oaId)
      (fun r => { r with status := ns }) (List.find?_eq_none.mp hl)
  · exact lem_map_no_match st.oas (fun r => r.id == oaId)
      (fun r => { r with status := ns }) (List.find?_eq_none.mp ho)

/-- C7 instantiated: id 99 matches no PR and the state is returned
untouched with NotFound; id 3 is present, is written and its prior
status In Process is recorded. -/
theorem C7_update_status_contract_witness :
    updatePRStatusDashboard exState 99 "Completed" "admin" = (some .NotFound, exState) ∧
    (updatePRStatusDashboard exState 3 "Completed" "admin").2.history =
      exState.history ++ [⟨"PR", toString 3, some "In Process", "Completed", "admin"⟩] := by
  refine ⟨C7_update_status_contract.1 exState 99 "Completed" "admin" (by rfl), ?_⟩
  exact (C7_update_status_contract.2.1 exState 3 "Completed" "admin"
    ⟨3, "PR-2024-11", 5, "Islamabad", "In Process"⟩ (by rfl)).2.2

/-- C8: completing a payment whose pr_id is null skips the cascade
silently: no error, the payment write commits, exactly the one Payment
entry is appended, and nothing else in the state changes. -/
theorem C8_cascade_null_pr_skipped (st : State) (payId : Nat) (u : String)
    (pay : PaymentRow)
    (hfind : st.payments.find? (fun r => r.id == payId) = some pay)
    (hnull : pay.pr_id = none) :
    updatePaymentStatusDashboard st payId "Completed" u =
      (none,
        { st with
          payments := st.payments.map fun r =>
            if r.id == payId then { r with status := "Completed" } else r
          history := st.history ++
            [⟨"Payment", toString payId, some pay.status, "Completed", u⟩] }) :=
  lem_updatePayment_completed_nullpr st payId u pay hfind hnull

/-- C8 instantiated: payment id 9 has a null pr_id; completing it
commits the payment write and one Payment entry, touching no PR. -/
theorem C8_cascade_null_pr_skipped_witness :
    updatePaymentStatusDashboard exState 9 "Completed" "admin" =
      (none,
        { exState with
          payments := exState.payments.map fun r =>
            if r.id == 9 then { r with status := "Completed" } else r
          history := exState.history ++
            [⟨"Payment", toString 9, some "Pending", "Completed", "admin"⟩] }) :=
  C8_cascade_null_pr_skipped exState 9 "admin"
    ⟨9, none, "", "Miscellaneous", "Pending"⟩ (by rfl) (by rfl)

/-- C9: re-applying the current status to a PR still performs the write
and still appends a history entry whose old and new status coincide;
nothing is deduplicated. -/
theorem C9_same_status_still_logged (st : State) (prId : Nat) (u : String) (pr : PRRow)
    (h : st.prs.find? (fun r => r.id == prId) = some pr) :
    (updatePRStatusDashboard st prId pr.status u).1 = none ∧
    (updatePRStatusDashboard st prId pr.status u).2.prs =
      (st.prs.map fun r => if r.id == prId then { r with status := pr.status } else r) ∧
    (updatePRStatusDashboard st prId pr.status u).2.history =
      st.history ++ [⟨"PR", toString prId, some pr.status, pr.status, u⟩] := by
  rw [lem_updatePR_found st prId pr.status u pr h]
  exact ⟨rfl, rfl, rfl⟩

/-- C9 instantiated: PR 3 is already In Process; re-applying In Process
still appends an entry with old = new = In Process. -/
theorem C9_same_status_still_logged_witness :
    (updatePRStatusDashboard exState 3 "In Process" "admin").1 = none ∧
    (updatePRStatusDashboard exState 3 "In Process" "admin").2.history =
      exState.history ++ [⟨"PR", toString 3, some "In Process", "In Process", "admin"⟩] := by
  have h := C9_same_status_still_logged exState 3 "admin"
    ⟨3, "PR-2024-11", 5, "Islamabad", "In Process"⟩ (by rfl)
  exact ⟨h.1, h.2.2⟩

/-- Helper: Save Payment with a present PR and status Completed commits
the upsert, marks the PR Completed and appends exactly the Payment and
PR entries, in both upsert branches. -/
theorem lem_savePayment_found_completed (st : State) (prId : Nat) (cat u : String)
    (pr : PRRow) (hpr : st.prs.find? (fun r => r.id == prId) = some pr) :
    (savePayment st prId cat "Completed" u).1 = none ∧
    (savePayment st prId cat "Completed" u).2.prs =
      (st.prs.map fun r => if r.id == prId then { r with status := "Completed" } else r) ∧
    (savePayment st prId cat "Completed" u).2.history =
      st.history ++
        [⟨"Payment", toString prId, none, "Completed", u⟩,
         ⟨"PR", toString prId, some pr.status, "Completed", u⟩] := by
  unfold savePayment
  rw [hpr]
  cases hex : st.payments.find? (fun r => r.pr_id == some prId) with
  | none => exact ⟨by simp [hex], by simp [hex], by simp [hex]⟩
  | some p => exact ⟨by simp [hex], by simp [hex], by simp [hex]⟩

/-- C4: completing a payment linked to an existing PR marks the PR
Completed and appends exactly two entries, tagged Payment and PR, both
with new_status Completed — on the dashboard update path and on the
Save Payment path alike. -/
theorem C4_payment_completed_cascade :
    (∀ (st : State) (payId prId : Nat) (u : String) (pay : PaymentRow) (pr : PRRow),
        st.payments.find? (fun r => r.id == payId) = some pay →
        pay.pr_id = some prId →
        st.prs.find? (fun r => r.id == prId) = some pr →
        (updatePaymentStatusDashboard st payId "Completed" u).1 = none ∧
        (updatePaymentStatusDashboard st payId "Completed" u).2.prs =
          (st.prs.map fun r => if r.id == prId then { r with status := "Completed" } else r) ∧
        (updatePaymentStatusDashboard st payId "Completed" u).2.history =
          st.history ++
            [⟨"Payment", toString payId, some pay.status, "Completed", u⟩,
             ⟨"PR", toString prId, some pr.status, "Completed", u⟩]) ∧
    (∀ (st : State) (prId : Nat) (cat u : String) (pr : PRRow),
        st.prs.find? (fun r => r.id == prId) = some pr →
        (savePayment st prId cat "Completed" u).1 = none ∧
        (savePayment st prId cat "Completed" u).2.prs =
          (st.prs.map fun r => if r.id == prId then { r with status := "Completed" } else r) ∧
        (savePayment st prId cat "Completed" u).2.history =
          st.history ++
            [⟨"Payment", toString prId, none, "Completed", u⟩,
             ⟨"PR", toString prId, some pr.status, "Completed", u⟩]) := by
  refine ⟨fun st payId prId u pay pr hfind hlink hpr => ?_,
          fun st prId cat u pr hpr => lem_savePayment_found_completed st prId cat u pr hpr⟩
  rw [lem_updatePayment_completed_cascade st payId prId u pay pr hfind hlink hpr]
  exact ⟨rfl, rfl, rfl⟩

/-- C4 instantiated on the example of the specification: payment id 7
linked to PR id 3, moved to Completed, marks PR 3 Completed and logs
the Payment and PR pair of entries. -/
theorem C4_payment_completed_cascade_witness :
    (updatePaymentStatusDashboard exState 7 "Completed" "admin").2.prs =
      (exState.prs.map fun r => if r.id == 3 then { r with status := "Completed" } else r) ∧
    (updatePaymentStatusDashboard exState 7 "Completed" "admin").2.history =
      exState.history ++
        [⟨"Payment", toString 7, some "In Process", "Completed", "admin"⟩,
         ⟨"PR", toString 3, some "In Process", "Completed", "admin"⟩] := by
  have h := C4_payment_completed_cascade.1 exState 7 3 "admin"
    ⟨7, some 3, "PR-2024-11", "ICT", "In Process"⟩
    ⟨3, "PR-2024-11", 5, "Islamabad", "In Process"⟩ (by rfl) (by rfl) (by rfl)
  exact ⟨h.2.1, h.2.2⟩

/-- At most one payment row carries any given pr_id. -/
def atMostOnePaymentPerPr (l : List PaymentRow) : Prop :=
  ∀ q : Nat, (l.countP fun r => r.pr_id == some q) ≤ 1

/-- Helper: the payments table produced by Save Payment is the in-place
update of the matching row when one exists and an appended fresh row
otherwise. -/
theorem lem_savePayment_payments (st : State) (prId : Nat) (cat status u : String)
    (pr : PRRow) (hpr : st.prs.find? (fun r => r.id == prId) = some pr) :
    (savePayment st prId cat status u).2.payments =
      (match st.payments.find? (fun r => r.pr_id == some prId) with
       | some _ => st.payments.map fun r =>
           if r.pr_id == some prId then
             { r with pr_number := pr.pr_number, category := cat, status := status }
           else r
       | none => st.payments ++ [⟨st.nextPaymentId, some prId, pr.pr_number, cat, status⟩]) := by
  unfold savePayment
  rw [hpr]
  cases hex : st.payments.find? (fun r => r.pr_id == some prId) <;>
    by_cases hc : status = "Completed" <;> simp [hex, hc]

/-- C10: Save Payment preserves the at-most-one-payment-per-PR
invariant: the update branch touches rows in place and the insert
branch only fires when no row with this pr_id exists. -/
theorem C10_at_most_one_payment_per_pr (st : State) (prId : Nat) (cat status u : String)
    (hinv : atMostOnePaymentPerPr st.payments) :
    atMostOnePaymentPerPr (savePayment st prId cat status u).2.payments := by
  intro q
  cases hpr : st.prs.find? (fun r => r.id == prId) with
  | none =>
      have : savePayment st prId cat status u = (some .NotFound, st) := by
        simp [savePayment, hpr]
      rw [this]
      exact hinv q
  | some pr =>
      rw [lem_savePayment_payments st prId cat status u pr hpr]
      cases hex : st.payments.find? (fun r => r.pr_id == some prId) with
      | some p =>
          have hmap : ∀ (l : List PaymentRow),
              (l.map fun r =>
                if r.pr_id == some prId then
                  { r with pr_number := pr.pr_number, category := cat, status := status }
                else r).countP (fun r => r.pr_id == some q) =
              l.countP (fun r => r.pr_id == some q) := by
            intro l
            induction l with
            | nil => rfl
            | cons a t ih =>
                rw [List.map_cons, List.countP_cons, List.countP_cons, ih]
                by_cases hb : a.pr_id = some prId <;> simp [hb]
          rw [hmap]
          exact hinv q
      | none =>
          have hzero : st.payments.countP (fun r => r.pr_id == some prId) = 0 := by
            refine List.countP_eq_zero.mpr ?_
            intro a ha
            exact List.find?_eq_none.mp hex a ha
          by_cases hq : prId = q
          · subst hq
            simp [List.countP_append, hzero, List.countP_cons]
          · have hne : ((some prId : Option Nat) == some q) = false := by
              simp [hq]
            simpa [List.countP_append, List.countP_cons, hne] using hinv q

/-- C10 instantiated: the example state has at most one payment per PR
id, and Save Payment for PR 3 keeps it that way. -/
theorem C10_at_most_one_payment_per_pr_witness :
    atMostOnePaymentPerPr (savePayment exState 3 "ICT" "Pending" "admin").2.payments := by
  refine C10_at_most_one_payment_per_pr exState 3 "ICT" "Pending" "admin" ?_
  intro q
  by_cases h : 3 = q
  · subst h; decide
  · have h3 : ((some 3 : Option Nat) == some q) = false := by simp [h]
    simp [exState, List.countP_cons, h3]

/-- C3: the claim says a Liquidation update cascades to the linked OA
only on Completed or Paid, but the dashboard handler writes the new
status to the OA unconditionally: moving the liquidation of OA 1 to In
Process also moves the OA itself to In Process. -/
theorem C3_cascade_counterexample :
    exState.oas = [⟨1, "Supplier A", "Pending"⟩] ∧
    (updateLiquidationStatusDashboard exState 1 "In Process" "admin").2.oas =
      [⟨1, "Supplier A", "In Process"⟩] :=
  ⟨rfl, rfl⟩

/-- C3 (amended): the dashboard Liquidation update always sets the
linked OA to the new Liquidation status, whatever that status is; only
the Save Liquidation Record path restricts the cascade to Completed or
Paid and leaves the OA untouched otherwise. -/
theorem C3_cascade_amended :
    (∀ (st : State) (oaId : Nat) (ns u : String),
        (updateLiquidationStatusDashboard st oaId ns u).2.oas =
          (st.oas.map fun r => if r.id == oaId then { r with status := ns } else r)) ∧
    (∀ (st : State) (oaId : Nat) (ns u : String) (oa : OARow),
        st.oas.find? (fun r => r.id == oaId) = some oa →
        ((ns = "Completed" ∨ ns = "Paid") →
          (saveLiquidationRecord st oaId ns u).2.oas =
            (st.oas.map fun r => if r.id == oaId then { r with status := ns } else r)) ∧
        (ns ≠ "Completed" → ns ≠ "Paid" →
          (saveLiquidationRecord st oaId ns u).2.oas = st.oas)) := by
  refine ⟨fun st oaId ns u => rfl, fun st oaId ns u oa h => ⟨fun hns => ?_, fun h1 h2 => ?_⟩⟩
  · rcases hns with hc | hc <;> simp [saveLiquidationRecord, h, hc]
  · simp [saveLiquidationRecord, h, h1, h2]

/-- C3 amended claim instantiated: saving a liquidation for OA 1 with
status Completed closes the OA, while saving one with status In
Process leaves the OA untouched. -/
theorem C3_cascade_amended_witness :
    (saveLiquidationRecord exState 1 "Completed" "admin").2.oas =
      (exState.oas.map fun r => if r.id == 1 then { r with status := "Completed" } else r) ∧
    (saveLiquidationRecord exState 1 "In Process" "admin").2.oas = exState.oas := by
  have h1 := C3_cascade_amended.2 exState 1 "Completed" "admin"
    ⟨1, "Supplier A", "Pending"⟩ (by rfl)
  have h2 := C3_cascade_amended.2 exState 1 "In Process" "admin"
    ⟨1, "Supplier A", "Pending"⟩ (by rfl)
  exact ⟨h1.1 (Or.inl rfl), h2.2 (by decide) (by decide)⟩

/-- C6: the claim says every history entry records the string form of
the mutated entity id, but the Save DSA Payment handler records the
vendor name: the created DSA row has id 2 while its entry carries
Vendor X as record_id. -/
theorem C6_record_id_counterexample :
    (saveDsaPayment exState "Vendor X" 0 3 "Pending" "admin").history =
      [⟨"DSA", "Vendor X", none, "Pending", "admin"⟩] ∧
    ((saveDsaPayment exState "Vendor X" 0 3 "Pending" "admin").dsas.map fun r => r.id) =
      [1, 2] ∧
    "Vendor X" ≠ toString 2 := by
  exact ⟨rfl, rfl, by decide⟩

/-- C6 (amended): dashboard PR, Payment, DSA and OA updates, PR line
creation and OA creation record the string form of the mutated entity
id, but the Save DSA Payment entry records the vendor name, the Save
Payment entry tagged Payment records the linked PR id rather than the
payment row id, and both entries of the dashboard Liquidation update
record the OA id rather than the liquidation row id. -/
theorem C6_record_id_amended :
    (∀ (st : State) (prId : Nat) (ns u : String) (pr : PRRow),
        st.prs.find? (fun r => r.id == prId) = some pr →
        (updatePRStatusDashboard st prId ns u).2.history =
          st.history ++ [⟨"PR", toString prId, some pr.status, ns, u⟩]) ∧
    (∀ (st : State) (payId : Nat) (ns u : String) (pay : PaymentRow),
        st.payments.find? (fun r => r.id == payId) = some pay →
        ∃ extra, (updatePaymentStatusDashboard st payId ns u).2.history =
          st.history ++ ⟨"Payment", toString payId, some pay.status, ns, u⟩ :: extra) ∧
    (∀ (st : State) (dsaId : Nat) (ns u : String) (d : DsaRow),
        st.dsas.find? (fun r => r.id == dsaId) = some d →
        (updateDsaStatusDashboard st dsaId ns u).2.history =
          st.history ++ [⟨"DSA", toString dsaId, some d.status, ns, u⟩]) ∧
    (∀ (st : State) (oaId : Nat) (ns u : String) (oa : OARow),
        st.oas.find? (fun r => r.id == oaId) = some oa →
        (updateOaStatusDashboard st oaId ns u).2.history =
          st.history ++ [⟨"OA", toString oaId, some oa.status, ns, u⟩]) ∧
    (∀ (h : PRHeader) (u : String) (ws : List Wbl) (st : State) (l : PRLine),
        ((insertPRLine h u ws st l).prs.map fun r => r.id) =
          (st.prs.map fun r => r.id) ++ [st.nextPrId] ∧
        (insertPRLine h u ws st l).history =
          st.history ++ [⟨"PR", toString st.nextPrId, none, "Submitted", u⟩]) ∧
    (∀ (st : State) (sup ns u : String),
        ((saveOperationalAdvance st sup ns u).oas.map fun r => r.id) =
          (st.oas.map fun r => r.id) ++ [st.nextOaId] ∧
        (saveOperationalAdvance st sup ns u).history =
          st.history ++ [⟨"OA", toString st.nextOaId, none, ns, u⟩]) ∧
    (∀ (st : State) (v : String) (sd ed : Int) (ns u : String),
        ((saveDsaPayment st v sd ed ns u).dsas.map fun r => r.id) =
          (st.dsas.map fun r => r.id) ++ [st.nextDsaId] ∧
        (saveDsaPayment st v sd ed ns u).history =
          st.history ++ [⟨"DSA", v, none, ns, u⟩]) ∧
    (∀ (st : State) (prId : Nat) (cat ns u : String) (pr : PRRow),
        st.prs.find? (fun r => r.id == prId) = some pr →
        ∃ extra, (savePayment st prId cat ns u).2.history =
          st.history ++ ⟨"Payment", toString prId, none, ns, u⟩ :: extra) ∧
    (∀ (st : State) (oaId : Nat) (ns u : String),
        (updateLiquidationStatusDashboard st oaId ns u).2.history =
          st.history ++
            [⟨"Liquidation", toString oaId,
               ((st.liqs.find? fun r => r.oa_id == oaId).map fun r => r.status), ns, u⟩,
             ⟨"OA", toString oaId,
               ((st.liqs.find? fun r => r.oa_id == oaId).map fun r => r.status), ns, u⟩]) := by
  refine ⟨fun st prId ns u pr h => by rw [lem_updatePR_found st prId ns u pr h],
          fun st payId ns u pay h => (lem_updatePayment_found st payId ns u pay h).2,
          fun st dsaId ns u d h => by rw [lem_updateDsa_found st dsaId ns u d h],
          fun st oaId ns u oa h => by rw [lem_updateOa_found st oaId ns u oa h],
          fun h u ws st l => ⟨by simp [insertPRLine], rfl⟩,
          fun st sup ns u => ⟨by simp [saveOperationalAdvance], rfl⟩,
          fun st v sd ed ns u => ⟨by simp [saveDsaPayment], rfl⟩,
          fun st prId cat ns u pr hpr => ?_,
          fun st oaId ns u => rfl⟩
  unfold savePayment
  rw [hpr]
  cases hex : st.payments.find? (fun r => r.pr_id == some prId) with
  | none =>
      by_cases hc : ns = "Completed"
      · subst hc
        exact ⟨[⟨"PR", toString prId, some pr.status, "Completed", u⟩], by simp [hex]⟩
      · exact ⟨[], by simp [hex, hc]⟩
  | some p =>
      by_cases hc : ns = "Completed"
      · subst hc
        exact ⟨[⟨"PR", toString prId, some pr.status, "Completed", u⟩], by simp [hex]⟩
      · exact ⟨[], by simp [hex, hc]⟩

/-- C6 amended claim instantiated: a dashboard PR update records the PR
id itself, a dashboard update of payment 9 records the payment id 9,
while Save Payment for PR 3 records the PR id as the record_id of its
Payment-tagged entry. -/
theorem C6_record_id_amended_witness :
    (updatePRStatusDashboard exState 3 "Completed" "admin").2.history =
      exState.history ++ [⟨"PR", toString 3, some "In Process", "Completed", "admin"⟩] ∧
    (∃ extra, (updatePaymentStatusDashboard exState 9 "In Process" "admin").2.history =
      exState.history ++ ⟨"Payment", toString 9, some "Pending", "In Process", "admin"⟩ ::
        extra) ∧
    ∃ extra, (savePayment exState 3 "ICT" "Pending" "admin").2.history =
      exState.history ++ ⟨"Payment", toString 3, none, "Pending", "admin"⟩ :: extra := by
  exact ⟨C6_record_id_amended.1 exState 3 "Completed" "admin"
           ⟨3, "PR-2024-11", 5, "Islamabad", "In Process"⟩ (by rfl),
         C6_record_id_amended.2.1 exState 9 "In Process" "admin"
           ⟨9, none, "", "Miscellaneous", "Pending"⟩ (by rfl),
         C6_record_id_amended.2.2.2.2.2.2.2.1 exState 3 "ICT" "Pending" "admin"
           ⟨3, "PR-2024-11", 5, "Islamabad", "In Process"⟩ (by rfl)⟩

/-- A fully filled PR header used to exercise the submit validation. -/
def ex5Header : PRHeader := ⟨"PR-77", "HEALTH", "Services", "ICT", "", "admin"⟩

/-- A PR line whose individual WBL allocations sum to 90. -/
def ex5LineUnder : PRLine := ⟨0, 2, "Quetta", [⟨"P1", "T1", 60⟩, ⟨"P2", "T1", 30⟩]⟩

/-- A PR line with no individual allocations, for the shared-WBL mode. -/
def ex5LineShared : PRLine := ⟨0, 2, "Quetta", []⟩

/-- C5: the claim says every allocation set is validated to sum to 100
at submission, but the handler only checks the shared set when the
same-WBL-for-all option is on: a submission with individual line
allocations summing to 90 is accepted and its rows are inserted. -/
theorem C5_wbl_sum_counterexample :
    wblSum ex5LineUnder.wbls = 90 ∧
    (submitPR exState ex5Header false [] [ex5LineUnder] "admin").1 = none ∧
    ((submitPR exState ex5Header false [] [ex5LineUnder] "admin").2.wbls.map
        fun w => w.percentage) = [60, 30] := by
  exact ⟨rfl, rfl, rfl⟩

/-- C5 (amended): the sum-to-100 check applies only to the shared
allocation set when the same-WBL-for-all option is selected: there a
sum different from 100 is rejected with a validation error and nothing
is committed, while a sum of 100 is accepted; without that option the
submission is accepted with no check of the per-line allocation sums. -/
theorem C5_wbl_validation_amended :
    (∀ (st : State) (h : PRHeader) (shared : List Wbl) (lines : List PRLine) (u : String),
        missingFields h = [] →
        wblSum shared ≠ 100 →
        submitPR st h true shared lines u = (some .ValidationError, st)) ∧
    (∀ (st : State) (h : PRHeader) (shared : List Wbl) (lines : List PRLine) (u : String),
        missingFields h = [] →
        wblSum shared = 100 →
        (lines.any fun l => isBlank l.location) = false →
        (submitPR st h true shared lines u).1 = none) ∧
    (∀ (st : State) (h : PRHeader) (shared : List Wbl) (lines : List PRLine) (u : String),
        missingFields h = [] →
        (lines.any fun l => isBlank l.location) = false →
        (submitPR st h false shared lines u).1 = none) := by
  refine ⟨fun st h shared lines u h1 h2 => ?_,
          fun st h shared lines u h1 h2 h3 => ?_,
          fun st h shared lines u h1 h3 => ?_⟩
  · simp [submitPR, h1, h2]
  · simp [submitPR, h1, h2, h3]
  · simp [submitPR, h1, h3]

/-- C5 amended claim instantiated on the examples of the specification:
shared allocations 60 and 40 are accepted, shared allocations 60 and 30
are rejected with a validation error and no commit. -/
theorem C5_wbl_validation_amended_witness :
    submitPR exState ex5Header true [⟨"P1", "T1", 60⟩, ⟨"P2", "T1", 30⟩]
        [ex5LineShared] "admin" = (some .ValidationError, exState) ∧
    (submitPR exState ex5Header true [⟨"P1", "T1", 60⟩, ⟨"P2", "T1", 40⟩]
        [ex5LineShared] "admin").1 = none := by
  exact ⟨C5_wbl_validation_amended.1 exState ex5Header _ _ "admin" (by rfl) (by decide),
         C5_wbl_validation_amended.2.1 exState ex5Header _ _ "admin"
           (by rfl) (by decide) (by rfl)⟩

/-- C2: the claim says every status mutation appends exactly one
history entry per mutated entity, but Save Liquidation Record creates a
liquidation row (status set at creation) and appends no entry at all
when the status is not Completed or Paid. -/
theorem C2_history_counterexample :
    (saveLiquidationRecord exState 1 "Pending" "admin").1 = none ∧
    (saveLiquidationRecord exState 1 "Pending" "admin").2.liqs =
      exState.liqs ++ [⟨2, 1, "Pending"⟩] ∧
    (saveLiquidationRecord exState 1 "Pending" "admin").2.history = exState.history := by
  exact ⟨rfl, rfl, rfl⟩

/-- Helper: inserting PR lines one by one appends exactly one history
entry per line. -/
theorem lem_insert_foldl_history_len (h : PRHeader) (u : String) (f : PRLine → List Wbl) :
    ∀ (lines : List PRLine) (st : State),
      ((lines.foldl (fun s l => insertPRLine h u (f l) s l) st).history).length =
        st.history.length + lines.length := by
  intro lines
  induction lines with
  | nil => intro st; simp
  | cons a t ih =>
      intro st
      rw [List.foldl_cons, ih]
      simp [insertPRLine]
      omega

/-- C2 (amended): every modelled status mutation appends exactly one
history entry per entity it writes — one for each plain update or
creation, two for the completed-payment cascade and for the dashboard
liquidation update — except Save Liquidation Record, which appends no
entry for the liquidation row it creates: it appends one OA entry when
it cascades (Completed or Paid) and none otherwise. -/
theorem C2_history_amended :
    (∀ (st : State) (prId : Nat) (ns u : String) (pr : PRRow),
        st.prs.find? (fun r => r.id == prId) = some pr →
        (updatePRStatusDashboard st prId ns u).2.history.length = st.history.length + 1) ∧
    (∀ (st : State) (dsaId : Nat) (ns u : String) (d : DsaRow),
        st.dsas.find? (fun r => r.id == dsaId) = some d →
        (updateDsaStatusDashboard st dsaId ns u).2.history.length = st.history.length + 1) ∧
    (∀ (st : State) (oaId : Nat) (ns u : String) (oa : OARow),
        st.oas.find? (fun r => r.id == oaId) = some oa →
        (updateOaStatusDashboard st oaId ns u).2.history.length = st.history.length + 1) ∧
    (∀ (st : State) (payId : Nat) (ns u : String) (pay : PaymentRow),
        st.payments.find? (fun r => r.id == payId) = some pay →
        (ns ≠ "Completed" →
          (updatePaymentStatusDashboard st payId ns u).2.history.length =
            st.history.length + 1) ∧
        (pay.pr_id = none →
          (updatePaymentStatusDashboard st payId ns u).2.history.length =
            st.history.length + 1) ∧
        (∀ (prId : Nat) (pr : PRRow), pay.pr_id = some prId →
          st.prs.find? (fun r => r.id == prId) = some pr →
          (updatePaymentStatusDashboard st payId "Completed" u).2.history.length =
            st.history.length + 2)) ∧
    (∀ (st : State) (oaId : Nat) (ns u : String),
        (updateLiquidationStatusDashboard st oaId ns u).2.history.length =
          st.history.length + 2) ∧
    (∀ (st : State) (v : String) (sd ed : Int) (ns u : String),
        (saveDsaPayment st v sd ed ns u).history.length = st.history.length + 1) ∧
    (∀ (st : State) (sup ns u : String),
        (saveOperationalAdvance st sup ns u).history.length = st.history.length + 1) ∧
    (∀ (st : State) (h : PRHeader) (swa : Bool) (shared : List Wbl)
        (lines : List PRLine) (u : String),
        (submitPR st h swa shared lines u).1 = none →
        (submitPR st h swa shared lines u).2.history.length =
          st.history.length + lines.length) ∧
    (∀ (st : State) (prId : Nat) (cat ns u : String) (pr : PRRow),
        st.prs.find? (fun r => r.id == prId) = some pr →
        (savePayment st prId cat ns u).2.history.length =
          st.history.length + (if ns = "Completed" then 2 else 1)) ∧
    (∀ (st : State) (oaId : Nat) (ns u : String) (oa : OARow),
        st.oas.find? (fun r => r.id == oaId) = some oa →
        (saveLiquidationRecord st oaId ns u).2.liqs.length = st.liqs.length + 1 ∧
        (saveLiquidationRecord st oaId ns u).2.history.length =
          st.history.length + (if ns = "Completed" ∨ ns = "Paid" then 1 else 0)) := by
  refine ⟨fun st prId ns u pr h => by rw [lem_updatePR_found st prId ns u pr h]; simp,
          fun st dsaId ns u d h => by rw [lem_updateDsa_found st dsaId ns u d h]; simp,
          fun st oaId ns u oa h => by rw [lem_updateOa_found st oaId ns u oa h]; simp,
          fun st payId ns u pay h => ⟨fun hns => ?_, fun hnull => ?_, fun prId pr hlink hpr => ?_⟩,
          fun st oaId ns u => by simp [updateLiquidationStatusDashboard],
          fun st v sd ed ns u => by simp [saveDsaPayment],
          fun st sup ns u => by simp [saveOperationalAdvance],
          fun st h swa shared lines u hacc => ?_,
          fun st prId cat ns u pr hpr => ?_,
          fun st oaId ns u oa h => ?_⟩
  · simp [updatePaymentStatusDashboard, h, hns]
  · by_cases hc : ns = "Completed"
    · simp [updatePaymentStatusDashboard, h, hc, hnull]
    · simp [updatePaymentStatusDashboard, h, hc]
  · rw [lem_updatePayment_completed_cascade st payId prId u pay pr h hlink hpr]
    simp
  · unfold submitPR at hacc ⊢
    split_ifs at hacc ⊢ with h1 h2 h3
    all_goals simp at hacc
    · exact lem_insert_foldl_history_len h u (fun _ => shared) lines st
    · exact lem_insert_foldl_history_len h u (fun l => l.wbls) lines st
  · unfold savePayment
    rw [hpr]
    cases hex : st.payments.find? (fun r => r.pr_id == some prId) <;>
      by_cases hc : ns = "Completed" <;> simp [hex, hc]
  · unfold saveLiquidationRecord
    rw [h]
    by_cases hc : ns = "Completed" ∨ ns = "Paid" <;> simp [hc]

/-- C2 amended claim instantiated: a dashboard PR update appends one
entry, while saving a Pending liquidation for OA 1 creates a
liquidation row and appends no entry. -/
theorem C2_history_amended_witness :
    (updatePRStatusDashboard exState 3 "Completed" "admin").2.history.length =
      exState.history.length + 1 ∧
    (saveLiquidationRecord exState 1 "Pending" "admin").2.liqs.length =
      exState.liqs.length + 1 ∧
    (saveLiquidationRecord exState 1 "Pending" "admin").2.history.length =
      exState.history.length +
        (if ("Pending" : String) = "Completed" ∨ ("Pending" : String) = "Paid"
         then 1 else 0) := by
  have h1 := C2_history_amended.1 exState 3 "Completed" "admin"
    ⟨3, "PR-2024-11", 5, "Islamabad", "In Process"⟩ (by rfl)
  have h10 := C2_history_amended.2.2.2.2.2.2.2.2.2 exState 1 "Pending" "admin"
    ⟨1, "Supplier A", "Pending"⟩ (by rfl)
  exact ⟨h1, h10.1, h10.2⟩

end IomTracker
